import Mathlib

/-!
Shallow embedding of the batched concurrent-fetch and pagination core of the
FinancialModelingPrep client library (files `_abstract.py`, `forex.py`,
`ticker.py`, `tickers.py`), together with theorems settling the frozen
claims about it.

Conventions of the embedding:
* the HTTP transport is an explicit function parameter (page index to list
  of records, or request to optional payload);
* the nondeterministic completion order of `concurrent.futures.as_completed`
  is an explicit parameter (a permutation of the submitted window, given
  per round);
* Python exceptions become `Except`; a Python function body that falls off
  the end returns `none`;
* Python strings (ticker identifiers) are lists of characters, with the
  string methods the source uses (`upper`, `strip`, `split`, `join`,
  `in`) given executable models below, so that concrete runs reduce;
* the unbounded `while` loops are given explicit fuel; theorems require the
  fuel to be large enough for the loop to reach its exit condition.
-/

namespace FMP

/-! ## Python string primitives used by the source -/

/-- A Python string, as its list of characters. -/
abbrev PyStr := List Char

/-- Embeds `str.upper()` (the source only feeds it ASCII tickers). -/
def py_upper (s : PyStr) : PyStr := s.map Char.toUpper

/-- Embeds `str.strip()`: removes leading and trailing spaces. -/
def py_strip (s : PyStr) : PyStr :=
  (((s.dropWhile (fun c => c = ' ')).reverse).dropWhile (fun c => c = ' ')).reverse

/-- Embeds `str.split(sep)` for a one-character separator. -/
def py_split (sep : Char) : PyStr → List PyStr
  | [] => [[]]
  | c :: cs =>
    if c = sep then [] :: py_split sep cs
    else
      match py_split sep cs with
      | [] => [[c]]
      | t :: ts => (c :: t) :: ts

/-- Embeds `sep.join(parts)` for a one-character separator. -/
def py_intercalate (sep : Char) : List PyStr → PyStr
  | [] => []
  | [t] => t
  | t :: ts => t ++ sep :: py_intercalate sep ts

/-! ## Pagination: `Ticker.get_inst_owners` (tickers.py 233-291, ticker.py 226-282)

The inner `get_page(page)` calls `_get_data` and returns the decoded list
when it is truthy, `None` otherwise (`if res: return res`).  Records are
abstracted as natural numbers; the transport maps a page index to the list
of records of that page (an empty list models an empty page or a failed
decode). -/

/-- Embeds `get_page`: returns `some` of the page records when the page is
non-empty (truthy), `none` otherwise. -/
def getPage (transport : Nat → List Nat) (p : Nat) : Option (List Nat) :=
  if transport p = [] then none else some (transport p)

/-- One round of the concurrent branch: the window of futures is consumed in
completion order `order`; every result that is a list is appended to the
accumulator (`res += page`), and the `page` variable ends up holding the
result of the last completed future.  Returns the new accumulator and the
truthiness of that final `page` value (`while page:`). -/
def concRound (transport : Nat → List Nat) (order : List Nat)
    (res : List Nat) : List Nat × Bool :=
  order.foldl
    (fun acc p =>
      match getPage transport p with
      | some l => (acc.1 ++ l, true)
      | none => (acc.1, false))
    (res, true)

/-- The concurrent pagination loop (`max_workers > 1` branch): round `r`
submits the pages of window `r` and consumes them in the completion order
`orders r`; the loop continues while the last completed result of the round
was a list.  `fuel` bounds the number of rounds. -/
def get_inst_owners_conc (transport : Nat → List Nat)
    (orders : Nat → List Nat) : Nat → Nat → List Nat → List Nat
  | 0, _, res => res
  | fuel + 1, r, res =>
    let step := concRound transport (orders r) res
    if step.2 then get_inst_owners_conc transport orders fuel (r + 1) step.1
    else step.1

/-- The sequential pagination loop (`max_workers <= 1` branch):
`while page: page = get_page(i); if isinstance(page, list): res += page;
i += 1`. -/
def get_inst_owners_seq (transport : Nat → List Nat) :
    Nat → Nat → List Nat → List Nat
  | 0, _, res => res
  | fuel + 1, i, res =>
    match getPage transport i with
    | some l => get_inst_owners_seq transport fuel (i + 1) (res ++ l)
    | none => res

/-- Embeds the record-accumulation phase of `Ticker.get_inst_owners`:
the concurrent branch is taken when `max_workers > 1`, the sequential one
otherwise.  `orders` gives, per round, the pages of that round in completion
order (in the source, round `r` submits pages `r*W .. r*W+W-1` where
`W = max_workers`). -/
def get_inst_owners (transport : Nat → List Nat) (max_workers : Nat)
    (orders : Nat → List Nat) (fuel : Nat) : List Nat :=
  if 1 < max_workers then get_inst_owners_conc transport orders fuel 0 []
  else get_inst_owners_seq transport fuel 0 []

/-- Concatenation of the records of pages `i, i+1, ..., i+n-1` in ascending
page order. -/
def pageConcat (transport : Nat → List Nat) (i : Nat) : Nat → List Nat
  | 0 => []
  | n + 1 => transport i ++ pageConcat transport (i + 1) n

/-! ## Worker-pool dispatcher: `AbstractAPI.batch_download` (_abstract.py 115-126)

`res = [future.result() for future in as_completed(futures)]`: results are
collected in completion order; `future.result()` re-raises the exception of
a failed task, which aborts the comprehension and propagates out of
`batch_download`.  The model takes the per-task outcomes already arranged in
completion order. -/

/-- Embeds the result-collection comprehension: outcomes are consumed in
completion order; the first failed outcome re-raises its exception,
discarding everything else. -/
def collectResults {E A : Type} : List (Except E A) → Except E (List A)
  | [] => .ok []
  | .error e :: _ => .error e
  | .ok a :: rest => (collectResults rest).map (fun l => a :: l)

/-- The first captured failure among the outcomes, in completion order. -/
def first_error {E A : Type} : List (Except E A) → Option E
  | [] => none
  | .error e :: _ => some e
  | .ok _ :: rest => first_error rest

/-- The success values among the outcomes, in completion order. -/
def okValues {E A : Type} (cs : List (Except E A)) : List A :=
  cs.filterMap fun o => match o with | .ok a => some a | .error _ => none

/-- Embeds `AbstractAPI.batch_download` applied to a list of per-task
outcomes in completion order. -/
def batch_download {E A : Type} (completed : List (Except E A)) :
    Except E (List A) :=
  collectResults completed

/-! ## Chunker

`iter_by_chunk` is imported from `utils/utils.py`, which is not among the
source files; it is modelled from the spec. -/

/-- Auxiliary recursion of the chunker: batches of size `s + 1`, with fuel
bounding the recursion depth (any fuel at least the length of the list gives
the chunking itself). -/
def chunkFuel {α : Type} (s : Nat) : Nat → List α → List (List α)
  | 0, _ => []
  | _, [] => []
  | fuel + 1, x :: xs => (x :: xs.take s) :: chunkFuel s fuel (xs.drop s)

/-- Modelled from the spec: `iter_by_chunk` of `utils/utils.py` is not among
the provided source files.  Per the spec (4.1), it splits an ordered
sequence into consecutive batches of at most `size` elements, the last batch
possibly shorter, producing zero batches for an empty input.  A chunk size
of 0 is outside the contract (the spec requires `size > 0`) and yields no
batches here. -/
def iter_by_chunk {α : Type} (l : List α) (size : Nat) : List (List α) :=
  match size with
  | 0 => []
  | s + 1 => chunkFuel s l.length l

/-! ## ForEx historical fetch (forex.py 77-175) -/

/-- Maximum number of tickers per provider request (forex.py 31). -/
def MAX_INPUT_LEN : Nat := 5

/-- Embeds `ForEx.__get_historical_fx` on a sequence of tickers at the
default daily frequency.  The assertion bounds the sequence length by 5;
past it, exactly one transport request is issued for the comma-joined
ticker string (the second component lists the ticker strings fetched, each
standing for the URL built from it).  No membership check against the
available-pairs list occurs anywhere in the source body. -/
def get_historical_fx_single (transport : PyStr → Option Nat)
    (tickers : List PyStr) : Except String (Option Nat) × List PyStr :=
  if tickers.length ≤ 5 then
    let ticker_str := py_intercalate ',' tickers
    (.ok (transport ticker_str), [ticker_str])
  else
    (.error ("AssertionError: FMP does not accept sequences longer than 5 tickers!"), [])

/-- The groups of tickers that `ForEx._get_historical_fx` passes to the
single-request fetch, per its three branches: at most `MAX_INPUT_LEN`
tickers go out directly; up to `max_workers * MAX_INPUT_LEN` are chunked by
`MAX_INPUT_LEN`; longer inputs are first chunked by
`max_workers * MAX_INPUT_LEN` and each chunk re-chunked by
`MAX_INPUT_LEN`. -/
def get_historical_fx_batches (tickers : List PyStr) (max_workers : Nat) :
    List (List PyStr) :=
  if tickers.length ≤ MAX_INPUT_LEN then [tickers]
  else
    let max_len := max_workers * MAX_INPUT_LEN
    if tickers.length ≤ max_len then iter_by_chunk tickers MAX_INPUT_LEN
    else (iter_by_chunk tickers max_len).flatMap
      fun chunk => iter_by_chunk chunk MAX_INPUT_LEN

/-- Embeds the merge phase of the chunked branch of
`ForEx._get_historical_fx`: per-chunk tables are collected by
`ls.append(future.result())` in completion order (the first failed chunk
re-raises) and concatenated by `pd.concat(ls)`.  A table is a list of rows,
each row a composite key paired with a payload. -/
def get_historical_fx_multi {E : Type}
    (completed : List (Except E (List (Nat × Nat)))) :
    Except E (List (Nat × Nat)) :=
  match collectResults completed with
  | .ok tables => .ok tables.flatten
  | .error e => .error e

/-- Embeds the table assembly of `pd.concat(ls)` over partial tables: plain
concatenation of the rows of the partial results. -/
def fx_merge (partials : List (List (Nat × Nat))) : List (Nat × Nat) :=
  partials.flatten

/-! ## Ticker constructor validation (tickers.py 29-54) -/

/-- Embeds the validation phase of `Ticker.__init__` on a string input: a
comma-separated input is upper-cased, split and stripped, and every token
must be contained in the available list; a single token must have its
upper-cased stripped form among the upper-cased available tickers.  Failure
of either assertion raises before any data-endpoint request (the
constructor performs none; its only network access is the
available-tickers listing consumed here as `available`). -/
def Ticker_init (available : List PyStr) (ticker : PyStr) :
    Except String (List PyStr) :=
  if ticker.contains ',' then
    let tickers := (py_split ',' (py_upper ticker)).map py_strip
    if tickers.all (fun t => available.contains t) then .ok tickers
    else .error ("AssertionError: All tickers must be available!")
  else
    if (available.map py_upper).contains (py_strip (py_upper ticker)) then
      .ok [py_upper ticker]
    else .error ("AssertionError: Not a valid ticker!")

/-- Embeds the merge phase of `Ticker.get_inst_owners` (tickers.py 271-279):
the accumulated records are turned into one frame per record,
concatenated by `pd.concat`, and indexed by the composite key
(no deduplication occurs).  A record is a composite key paired with a
payload; the resulting table keeps every row. -/
def mergeOwn (pages : List (List (Nat × Nat))) : List (Nat × Nat) :=
  pages.flatten

/-! ## `AbstractAPI._get_data` (_abstract.py 86-104) -/

/-- An HTTP response: a status code, and the outcome of `res.json()`
(`Except.error` models a decode exception). -/
structure HttpResponse (J : Type) where
  status : Nat
  json : Except String J

/-- Embeds `AbstractAPI._get_data` applied to the response of the session
request: on status 200 or 202 the body is decoded; a decode exception is
logged and swallowed when `ignore_error` is set, re-raised otherwise; on
any other status the function body falls through and returns `None`
(`Except.ok none`). -/
def get_data {J : Type} (resp : HttpResponse J) (ignore_error : Bool) :
    Except String (Option J) :=
  if resp.status = 200 ∨ resp.status = 202 then
    match resp.json with
    | .ok j => .ok (some j)
    | .error e => if ignore_error then .ok none else .error e
  else .ok none

/-! ## Segment getters and the endpoint swap (tickers.py 125-169,
ticker.py 118-162) -/

/-- The mutable fields of a `Ticker` instance that the segment getters can
touch. -/
structure TickerState where
  endpoint : String
  tickers : List PyStr
  default_params : List (String × String)
deriving Repr, DecidableEq

/-- Embeds `Ticker.get_product_segments`: the endpoint is saved, swapped
from v3 to v4, the data is fetched for frequency A or Q, and the saved
endpoint is restored; an unsupported frequency restores the endpoint and
raises `NotImplementedError`. -/
def get_product_segments (transport : String → PyStr → Option Nat)
    (s : TickerState) (freq : String) :
    Except String (Option Nat) × TickerState :=
  let saved := s.endpoint
  let s1 : TickerState := { s with endpoint := saved.replace ("v3") ("v4") }
  let url := "revenue-product-segmentation/"
  if freq = "A" then
    (.ok (transport (s1.endpoint ++ url)
      (py_intercalate ',' s1.tickers)), { s1 with endpoint := saved })
  else if freq = "Q" then
    (.ok (transport (s1.endpoint ++ url ++ "?period=quarter")
      (py_intercalate ',' s1.tickers)), { s1 with endpoint := saved })
  else
    (.error ("NotImplementedError"), { s1 with endpoint := saved })

/-- Embeds `Ticker.get_geo_segments`: identical control flow to
`get_product_segments` with the geographic segmentation URL. -/
def get_geo_segments (transport : String → PyStr → Option Nat)
    (s : TickerState) (freq : String) :
    Except String (Option Nat) × TickerState :=
  let saved := s.endpoint
  let s1 : TickerState := { s with endpoint := saved.replace ("v3") ("v4") }
  let url := "revenue-geographic-segmentation/"
  if freq = "A" then
    (.ok (transport (s1.endpoint ++ url)
      (py_intercalate ',' s1.tickers)), { s1 with endpoint := saved })
  else if freq = "Q" then
    (.ok (transport (s1.endpoint ++ url ++ "?period=quarter")
      (py_intercalate ',' s1.tickers)), { s1 with endpoint := saved })
  else
    (.error ("NotImplementedError"), { s1 with endpoint := saved })

/-! ## Helper lemmas -/

/-- The chunks of a list flatten back to the list. -/
theorem chunkFuel_flatten {α : Type} (s : Nat) :
    ∀ (n : Nat) (l : List α), l.length ≤ n → (chunkFuel s n l).flatten = l := by
  intro n
  induction n with
  | zero =>
    intro l hl
    have h0 : l = [] := List.eq_nil_of_length_eq_zero (by omega)
    subst h0
    simp [chunkFuel]
  | succ n ih =>
    intro l hl
    cases l with
    | nil => simp [chunkFuel]
    | cons x xs =>
      have hd : (xs.drop s).length ≤ n := by
        simp only [List.length_drop]
        simp at hl
        omega
      simp only [chunkFuel, List.flatten_cons, ih (xs.drop s) hd]
      simp [List.take_append_drop]

/-- Larger fuel does not change the chunking, once the fuel covers the
length of the list. -/
theorem chunkFuel_fuel_irrel {α : Type} (s : Nat) :
    ∀ (n m : Nat) (l : List α), l.length ≤ n → l.length ≤ m →
      chunkFuel s n l = chunkFuel s m l := by
  intro n
  induction n with
  | zero =>
    intro m l hl _
    have h0 : l = [] := List.eq_nil_of_length_eq_zero (by omega)
    subst h0
    cases m <;> simp [chunkFuel]
  | succ n ih =>
    intro m l hl hm
    cases l with
    | nil => cases m <;> simp [chunkFuel]
    | cons x xs =>
      cases m with
      | zero => simp at hm
      | succ m =>
        have hd : (xs.drop s).length ≤ n := by
          simp only [List.length_drop]
          simp at hl
          omega
        have hdm : (xs.drop s).length ≤ m := by
          simp only [List.length_drop]
          simp at hm
          omega
        simp only [chunkFuel, ih m (xs.drop s) hd hdm]

/-- Every chunk has at most `s + 1` elements. -/
theorem chunkFuel_mem_length {α : Type} (s : Nat) :
    ∀ (n : Nat) (l b : List α), b ∈ chunkFuel s n l → b.length ≤ s + 1 := by
  intro n
  induction n with
  | zero => intro l b hb; simp [chunkFuel] at hb
  | succ n ih =>
    intro l b hb
    cases l with
    | nil => simp [chunkFuel] at hb
    | cons x xs =>
      simp only [chunkFuel] at hb
      rcases List.mem_cons.mp hb with h | h
      · subst h
        simp only [List.length_cons, List.length_take]
        omega
      · exact ih (xs.drop s) b h

/-- No chunk is empty. -/
theorem chunkFuel_mem_ne_nil {α : Type} (s : Nat) :
    ∀ (n : Nat) (l b : List α), b ∈ chunkFuel s n l → b ≠ [] := by
  intro n
  induction n with
  | zero => intro l b hb; simp [chunkFuel] at hb
  | succ n ih =>
    intro l b hb
    cases l with
    | nil => simp [chunkFuel] at hb
    | cons x xs =>
      simp only [chunkFuel] at hb
      rcases List.mem_cons.mp hb with h | h
      · subst h; simp
      · exact ih (xs.drop s) b h

/-- The number of chunks is the length divided by `s + 1`, rounded up. -/
theorem chunkFuel_count {α : Type} (s : Nat) :
    ∀ (n : Nat) (l : List α), l.length ≤ n →
      (chunkFuel s n l).length = (l.length + s) / (s + 1) := by
  intro n
  induction n with
  | zero =>
    intro l hl
    have h0 : l = [] := List.eq_nil_of_length_eq_zero (by omega)
    subst h0
    simp [chunkFuel, Nat.div_eq_of_lt (by omega : s < s + 1)]
  | succ n ih =>
    intro l hl
    cases l with
    | nil => simp [chunkFuel, Nat.div_eq_of_lt (by omega : s < s + 1)]
    | cons x xs =>
      have hd : (xs.drop s).length ≤ n := by
        simp only [List.length_drop]
        simp at hl
        omega
      simp only [chunkFuel, List.length_cons, ih (xs.drop s) hd, List.length_drop]
      by_cases hms : s ≤ xs.length
      · have h1 : xs.length - s + s = xs.length := by omega
        have h2 : xs.length + 1 + s = xs.length + (s + 1) := by omega
        rw [h1, h2, Nat.add_div_right _ (by omega)]
      · have h1 : xs.length - s = 0 := by omega
        rw [h1, Nat.div_eq_of_lt (by omega : 0 + s < s + 1),
          Nat.div_eq_of_lt_le (k := 1) (by omega) (by omega)]

/-- Any member of the chunking of a list by a positive size has at most
that many elements. -/
theorem iter_by_chunk_mem_length {α : Type} (l : List α) (S : Nat)
    (hS : 0 < S) (b : List α) (hb : b ∈ iter_by_chunk l S) : b.length ≤ S := by
  obtain ⟨s, rfl⟩ : ∃ s, S = s + 1 := ⟨S - 1, by omega⟩
  exact chunkFuel_mem_length s l.length l b hb

/-- When no outcome failed, the collection succeeds with all values in
completion order. -/
theorem collectResults_of_first_error_none {E A : Type} :
    ∀ (cs : List (Except E A)), first_error cs = none →
      collectResults cs = .ok (okValues cs)
  | [], _ => rfl
  | .error e :: _, h => by simp [first_error] at h
  | .ok a :: rest, h => by
    have hr := collectResults_of_first_error_none rest (by simpa [first_error] using h)
    simp [collectResults, okValues, hr, Except.map]

/-- The first failed outcome in completion order aborts the collection with
that failure. -/
theorem collectResults_of_first_error_some {E A : Type} :
    ∀ (cs : List (Except E A)) (e : E), first_error cs = some e →
      collectResults cs = .error e
  | [], e, h => by simp [first_error] at h
  | .error f :: _, e, h => by
    simp [first_error] at h
    simp [collectResults, h]
  | .ok a :: rest, e, h => by
    have hr := collectResults_of_first_error_some rest e (by simpa [first_error] using h)
    simp [collectResults, hr, Except.map]

/-- The sequential pagination loop accumulates exactly the pages from `i`
up to the first empty page `N`, given enough fuel. -/
theorem get_inst_owners_seq_spec (t : Nat → List Nat) (N : Nat)
    (hne : ∀ k, k < N → t k ≠ []) (hend : ∀ k, N ≤ k → t k = []) :
    ∀ (fuel i : Nat) (res : List Nat), i ≤ N → N - i < fuel →
      get_inst_owners_seq t fuel i res = res ++ pageConcat t i (N - i) := by
  intro fuel
  induction fuel with
  | zero => intro i res _ hf; omega
  | succ fuel ih =>
    intro i res hi hf
    by_cases hiN : i = N
    · subst hiN
      have h1 : t i = [] := hend i le_rfl
      simp [get_inst_owners_seq, getPage, h1, pageConcat]
    · have hilt : i < N := lt_of_le_of_ne hi hiN
      have h1 : t i ≠ [] := hne i hilt
      have h2 : N - i = (N - (i + 1)) + 1 := by omega
      simp only [get_inst_owners_seq, getPage, if_neg h1]
      rw [ih (i + 1) (res ++ t i) (by omega) (by omega), h2]
      simp [pageConcat, List.append_assoc]

/-! ## Claim theorems -/

/-- Claim C1 (code bug): the spec requires that when the lowest page of a
concurrently fetched window is empty, records of higher pages in the same
window are excluded from the merge.  The code violates this: with pages
0, 1, 3 non-empty and page 2 empty, a window of 4 pages fetched
concurrently with completion order 0, 1, 3, 2 merges the record of page 3
even though page 2, a lower page, is empty; the loop then terminates
because the last completed future returned `None`.  Per the claim only
pages 0 and 1 may contribute, so the result should be `[0, 1]`; the code
produces `[0, 1, 3]`. -/
theorem inst_owners_concurrent_merges_phantom_page :
    get_inst_owners (fun p => [[0], [1], [], [3]].getD p []) 4
      (fun r => if r = 0 then [0, 1, 3, 2] else List.range' (4 * r) 4) 5 =
      [0, 1, 3] ∧
    3 ∈ get_inst_owners (fun p => [[0], [1], [], [3]].getD p []) 4
      (fun r => if r = 0 then [0, 1, 3, 2] else List.range' (4 * r) 4) 5 := by
  constructor <;> decide

/-- Claim C2, counterexample: with two non-empty pages followed by empty
pages and `max_workers = 2`, the completion order that finishes page 1
before page 0 makes the merged result `[1, 0]`, not the in-page-order
concatenation `[0, 1]`; so the pagination result is not the ascending
concatenation for every concurrency setting. -/
theorem inst_owners_concurrent_order_counterexample :
    get_inst_owners (fun p => [[0], [1]].getD p []) 2
      (fun r => if r = 0 then [1, 0] else List.range' (2 * r) 2) 5 ≠
      pageConcat (fun p => [[0], [1]].getD p []) 0 2 := by decide

/-- Claim C2 (amended): for every transport returning `N` non-empty pages
followed by empty pages, the sequential path of `get_inst_owners`
(`max_workers` at most 1) returns exactly the concatenation of those `N`
pages' records in ascending page order, given fuel beyond `N`; under
concurrency the records are merged in completion order instead. -/
theorem inst_owners_sequential_concatenation (t : Nat → List Nat) (N : Nat)
    (max_workers : Nat) (orders : Nat → List Nat) (fuel : Nat)
    (hmw : max_workers ≤ 1)
    (hne : ∀ k, k < N → t k ≠ []) (hend : ∀ k, N ≤ k → t k = [])
    (hfuel : N < fuel) :
    get_inst_owners t max_workers orders fuel = pageConcat t 0 N := by
  unfold get_inst_owners
  rw [if_neg (by omega)]
  have h := get_inst_owners_seq_spec t N hne hend fuel 0 [] (Nat.zero_le N) (by omega)
  simpa using h

/-- Claim C2, witness: two non-empty pages followed by empty pages, fetched
sequentially, merge to the ascending concatenation. -/
theorem inst_owners_sequential_concatenation_witness :
    get_inst_owners (fun p => [[7], [8]].getD p []) 1 (fun _ => []) 3 =
      pageConcat (fun p => [[7], [8]].getD p []) 0 2 :=
  inst_owners_sequential_concatenation (fun p => [[7], [8]].getD p []) 2 1
    (fun _ => []) 3
    (by decide)
    (by intro k hk; interval_cases k <;> decide)
    (by intro k hk; exact List.getD_eq_default _ _ (by simpa using hk))
    (by decide)

/-- Claim C3 (confirmed, chunker modelled from the spec): for every input
sequence of length `L` and chunk size `S > 0`, the chunker produces
`ceil(L/S)` batches, their in-order concatenation is the original sequence,
no batch exceeds `S` elements, no batch is empty, and an empty input gives
zero batches. -/
theorem iter_by_chunk_coverage {α : Type} (l : List α) (S : Nat) (hS : 0 < S) :
    (iter_by_chunk l S).length = (l.length + S - 1) / S ∧
    (iter_by_chunk l S).flatten = l ∧
    (∀ b ∈ iter_by_chunk l S, b.length ≤ S) ∧
    (∀ b ∈ iter_by_chunk l S, b ≠ []) ∧
    (l = [] → iter_by_chunk l S = []) := by
  obtain ⟨s, rfl⟩ : ∃ s, S = s + 1 := ⟨S - 1, by omega⟩
  refine ⟨?_, ?_, ?_, ?_, ?_⟩
  · show (chunkFuel s l.length l).length = _
    rw [chunkFuel_count s l.length l le_rfl,
      (by omega : l.length + (s + 1) - 1 = l.length + s)]
  · exact chunkFuel_flatten s l.length l le_rfl
  · intro b hb
    exact chunkFuel_mem_length s l.length l b hb
  · intro b hb
    exact chunkFuel_mem_ne_nil s l.length l b hb
  · intro h
    subst h
    rfl

/-- Claim C3, witness: chunking a three-element list by 2 gives two batches
that flatten back to the list. -/
theorem iter_by_chunk_coverage_witness :
    (iter_by_chunk ([0, 1, 2] : List Nat) 2).flatten = [0, 1, 2] ∧
    (iter_by_chunk ([0, 1, 2] : List Nat) 2).length = (3 + 2 - 1) / 2 :=
  ⟨(iter_by_chunk_coverage [0, 1, 2] 2 (by decide)).2.1,
   (iter_by_chunk_coverage [0, 1, 2] 2 (by decide)).1⟩

/-- Claim C4, counterexample: a failed task among the completed futures
makes `batch_download` re-raise the failure, so the two successful sibling
results are discarded rather than captured as outcomes; the dispatcher is
fail-fast, not collect-all. -/
theorem batch_download_failfast_counterexample :
    batch_download ([.ok 1, .error 0, .ok 3] : List (Except Nat Nat)) =
      .error 0 := rfl

/-- Claim C4 (amended): `batch_download` submits every task once and
collects results in completion order, but only when no task fails: if every
outcome succeeds it returns all task results, and if any task raises it
re-raises the first failure in completion order, discarding the sibling
results. -/
theorem batch_download_collect_or_raise {E A : Type} (cs : List (Except E A)) :
    (first_error cs = none → batch_download cs = .ok (okValues cs)) ∧
    (∀ e, first_error cs = some e → batch_download cs = .error e) :=
  ⟨fun h => collectResults_of_first_error_none cs h,
   fun e h => collectResults_of_first_error_some cs e h⟩

/-- Claim C4, witness: an all-success run collects both results; a run with
one failure raises it. -/
theorem batch_download_collect_or_raise_witness :
    batch_download ([.ok 1, .ok 2] : List (Except Nat Nat)) = .ok [1, 2] ∧
    batch_download ([.ok 1, .error 5] : List (Except Nat Nat)) = .error 5 :=
  ⟨(batch_download_collect_or_raise [.ok 1, .ok 2]).1 rfl,
   (batch_download_collect_or_raise [.ok 1, .error 5]).2 5 rfl⟩

/-- Claim C5, counterexample: the ForEx historical fetch performs no
identifier validation: for a ticker that is not among the available pairs,
one data-fetch transport request is still issued and the call returns
normally instead of raising an invalid-identifier error. -/
theorem forex_fetch_without_validation :
    ([['E', 'U', 'R', 'U', 'S', 'D']].contains ['X', 'X', 'X']) = false ∧
    (get_historical_fx_single (fun _ => none) [['X', 'X', 'X']]).2.length = 1 ∧
    (get_historical_fx_single (fun _ => none) [['X', 'X', 'X']]).1 = .ok none := by
  refine ⟨by decide, by decide, rfl⟩

/-- Claim C5 (amended): the fail-fast validation holds for the `Ticker`
constructor only: an identifier that fails the membership check of
`Ticker.__init__` (in either its single-token or comma-separated form)
raises the validation assertion, and the constructor issues no data-fetch
transport call; the ForEx historical-fetch entry points perform no
identifier validation at all. -/
theorem ticker_init_validation_failfast (available : List PyStr) (ticker : PyStr) :
    (ticker.contains ',' = false →
      (available.map py_upper).contains (py_strip (py_upper ticker)) = false →
      Ticker_init available ticker =
        .error ("AssertionError: Not a valid ticker!")) ∧
    (ticker.contains ',' = true →
      ((py_split ',' (py_upper ticker)).map py_strip).all
        (fun t => available.contains t) = false →
      Ticker_init available ticker =
        .error ("AssertionError: All tickers must be available!")) := by
  constructor
  · intro h1 h2
    simp only [Ticker_init]
    rw [if_neg (by simpa using h1), if_neg (by simpa using h2)]
  · intro h1 h2
    simp only [Ticker_init]
    rw [if_pos (by simpa using h1), if_neg (by simpa using h2)]

/-- Claim C5, witness: requesting MSFT when only AAPL is available raises
the validation assertion. -/
theorem ticker_init_validation_failfast_witness :
    Ticker_init [['A', 'A', 'P', 'L']] ['M', 'S', 'F', 'T'] =
      .error ("AssertionError: Not a valid ticker!") :=
  (ticker_init_validation_failfast [['A', 'A', 'P', 'L']]
    ['M', 'S', 'F', 'T']).1 (by decide) (by decide)

/-- Claim C6, counterexample: when one chunk fetch fails among successful
ones, the batched historical-forex call re-raises the failure instead of
returning a table for the successful identifiers with a report of the
failed ones. -/
theorem fx_partial_failure_counterexample :
    get_historical_fx_multi ([.ok [(0, 10)], .error 7, .ok [(1, 11)]] :
      List (Except Nat (List (Nat × Nat)))) = .error 7 := rfl

/-- Claim C6 (amended): the batched historical-forex call succeeds only
when every per-chunk fetch succeeds, returning the concatenation of the
chunk tables in completion order; if any chunk fetch raises, the whole call
re-raises the first failure in completion order and produces neither a
partial table nor a report of failed identifiers. -/
theorem fx_multi_all_or_raise {E : Type}
    (cs : List (Except E (List (Nat × Nat)))) :
    (first_error cs = none →
      get_historical_fx_multi cs = .ok (okValues cs).flatten) ∧
    (∀ e, first_error cs = some e → get_historical_fx_multi cs = .error e) := by
  constructor
  · intro h
    unfold get_historical_fx_multi
    rw [collectResults_of_first_error_none cs h]
  · intro e h
    unfold get_historical_fx_multi
    rw [collectResults_of_first_error_some cs e h]

/-- Claim C6, witness: two successful chunks concatenate; a failing chunk
aborts the call. -/
theorem fx_multi_all_or_raise_witness :
    get_historical_fx_multi ([.ok [(0, 10)], .ok [(1, 11)]] :
      List (Except Nat (List (Nat × Nat)))) = .ok [(0, 10), (1, 11)] ∧
    get_historical_fx_multi ([.ok [(0, 10)], .error 9] :
      List (Except Nat (List (Nat × Nat)))) = .error 9 :=
  ⟨(fx_multi_all_or_raise [.ok [(0, 10)], .ok [(1, 11)]]).1 rfl,
   (fx_multi_all_or_raise [.ok [(0, 10)], .error 9]).2 9 rfl⟩

/-- Claim C7, counterexample: merging the same single-row partial result
set twice yields a two-row table, not the table obtained by merging it
once, for both the forex merge and the ownership merge; the duplicated key
is retained, so rows are not unique by key. -/
theorem merge_not_idempotent :
    fx_merge ([[(0, 1)]] ++ [[(0, 1)]]) ≠ fx_merge [[(0, 1)]] ∧
    mergeOwn ([[(0, 1)]] ++ [[(0, 1)]]) ≠ mergeOwn [[(0, 1)]] := by
  constructor <;> decide

/-- Claim C7 (amended): the merge is plain concatenation of the partial
results: merging a doubled partial set yields the once-merged rows twice
(so merging twice equals merging once only when the merge is empty), and
duplicate rows by key are all retained rather than deduplicated. -/
theorem merge_is_concatenation (ps qs : List (List (Nat × Nat))) :
    fx_merge (ps ++ qs) = fx_merge ps ++ fx_merge qs ∧
    mergeOwn (ps ++ qs) = mergeOwn ps ++ mergeOwn qs ∧
    (fx_merge (ps ++ ps) = fx_merge ps ↔ fx_merge ps = []) := by
  refine ⟨List.flatten_append ps qs, List.flatten_append ps qs, ?_, ?_⟩
  · intro h
    have hl := congrArg List.length h
    simp only [fx_merge, List.flatten_append, List.length_append] at hl
    exact List.eq_nil_of_length_eq_zero (by simp only [fx_merge]; omega)
  · intro h
    simp only [fx_merge] at h
    simp only [fx_merge, List.flatten_append, h, List.append_nil]

/-- Claim C8 (confirmed): a single provider request carries at most 5
identifiers.  Sequences longer than 5 are rejected by the assertion of the
single-request fetch, and every group the chunked multi-request path hands
to the single-request fetch has at most `MAX_INPUT_LEN = 5` tickers, so on
that path the assertion never fires.  The chunker is modelled from the
spec. -/
theorem forex_request_size_bound :
    (∀ (transport : PyStr → Option Nat) (ts : List PyStr), 5 < ts.length →
      (get_historical_fx_single transport ts).1 =
        .error ("AssertionError: FMP does not accept sequences longer than 5 tickers!")) ∧
    (∀ (ts : List PyStr) (w : Nat) (g : List PyStr),
      g ∈ get_historical_fx_batches ts w →
      g.length ≤ MAX_INPUT_LEN ∧
      ∀ (transport : PyStr → Option Nat),
        ((get_historical_fx_single transport g).1).isOk = true) := by
  constructor
  · intro transport ts h
    simp only [get_historical_fx_single]
    rw [if_neg (by omega)]
  · intro ts w g hg
    have h5 : MAX_INPUT_LEN = 5 := rfl
    have hlen : g.length ≤ MAX_INPUT_LEN := by
      simp only [get_historical_fx_batches] at hg
      split at hg
      · next hts =>
          simp only [List.mem_singleton] at hg
          subst hg
          exact hts
      · next hts =>
          split at hg
          · next hts2 =>
              exact iter_by_chunk_mem_length ts MAX_INPUT_LEN (by decide) g hg
          · next hts2 =>
              rcases List.mem_flatMap.mp hg with ⟨c, -, hgc⟩
              exact iter_by_chunk_mem_length c MAX_INPUT_LEN (by decide) g hgc
    rw [h5] at hlen
    refine ⟨by omega, fun transport => ?_⟩
    simp only [get_historical_fx_single]
    rw [if_pos hlen]
    rfl

/-- Claim C8, witness: six tickers are rejected by the single-request
assertion; the group of one ticker produced by the chunked path for those
six tickers passes it. -/
theorem forex_request_size_bound_witness :
    (get_historical_fx_single (fun _ => none)
      [['A'], ['B'], ['C'], ['D'], ['E'], ['F']]).1 =
      .error ("AssertionError: FMP does not accept sequences longer than 5 tickers!") ∧
    ([['F']].length ≤ MAX_INPUT_LEN ∧
      ∀ (transport : PyStr → Option Nat),
        ((get_historical_fx_single transport [['F']]).1).isOk = true) :=
  ⟨forex_request_size_bound.1 (fun _ => none) _ (by decide),
   forex_request_size_bound.2 [['A'], ['B'], ['C'], ['D'], ['E'], ['F']] 2
     [['F']] (by decide)⟩

/-- Claim C9 (confirmed): `_get_data` returns `None` without raising for
every response whose status is neither 200 nor 202, and likewise for a
200/202 response whose body fails to decode when `ignore_error` is true;
the caller cannot distinguish this from an absent payload. -/
theorem get_data_returns_none_on_error {J : Type} (resp : HttpResponse J)
    (ig : Bool) :
    (resp.status ≠ 200 → resp.status ≠ 202 → get_data resp ig = .ok none) ∧
    (∀ e, resp.json = .error e → get_data resp true = .ok none) := by
  constructor
  · intro h1 h2
    simp [get_data, h1, h2]
  · intro e he
    unfold get_data
    split
    · rw [he]
      rfl
    · rfl

/-- Claim C9, witness: a 404 response yields `None`, and a 200 response
with an undecodable body yields `None` under the default `ignore_error`. -/
theorem get_data_returns_none_on_error_witness :
    get_data (⟨404, Except.ok 0⟩ : HttpResponse Nat) true = .ok none ∧
    get_data (⟨200, Except.error "decode"⟩ : HttpResponse Nat) true = .ok none :=
  ⟨(get_data_returns_none_on_error (⟨404, Except.ok 0⟩ : HttpResponse Nat)
      true).1 (by decide) (by decide),
   (get_data_returns_none_on_error (⟨200, Except.error "decode"⟩ : HttpResponse Nat)
      true).2 "decode" rfl⟩

/-- Claim C10 (confirmed): `get_product_segments` and `get_geo_segments`
leave the whole object state, in particular `self.endpoint`, unchanged at
every exit they handle: on the normal returns for frequencies A and Q and
on the `NotImplementedError` exit for any other frequency, the temporary
v3-to-v4 endpoint swap is undone and no other field is modified. -/
theorem segments_restore_endpoint (transport : String → PyStr → Option Nat)
    (s : TickerState) (freq : String) :
    (get_product_segments transport s freq).2 = s ∧
    (get_geo_segments transport s freq).2 = s := by
  obtain ⟨e, tks, dps⟩ := s
  constructor
  · simp only [get_product_segments]
    by_cases hA : freq = "A"
    · rw [if_pos hA]
    · rw [if_neg hA]
      by_cases hQ : freq = "Q"
      · rw [if_pos hQ]
      · rw [if_neg hQ]
  · simp only [get_geo_segments]
    by_cases hA : freq = "A"
    · rw [if_pos hA]
    · rw [if_neg hA]
      by_cases hQ : freq = "Q"
      · rw [if_pos hQ]
      · rw [if_neg hQ]

end FMP
